import Mathlib

/-!
Verification of the teams-extractor repository against its specification.

Shallow embedding of:
  * `src/core/graph_client.py`  — cursor pagination (`GraphAPIClient.get_paginated`)
  * `src/core/extractor.py`     — discovery, extraction loop, filter pipeline
  * `processor/server.py`       — message store and processing state machine

Network effects are modelled as explicit environment parameters (a list of
page outcomes, fetch functions returning `Except`, classification/forward
outcomes).  JSON encode/decode round-trips are modelled as the identity.
-/

namespace GraphClient

/-- One page response of a paginated Graph endpoint: either a page of items
(the next cursor is present exactly when more outcomes follow in the
stream), or a fetch failure (`GraphAPIError` raised by `request`). -/
inductive PageOutcome (α : Type) where
  | page (items : List α)
  | err (msg : String)
deriving DecidableEq, Repr

/-- Python truthiness test `if limit and n >= limit:` for an
`Optional[int]` bound: `None` and `0` are falsy, so only a non-zero bound
that has been reached yields `true`. -/
def truthyAndGe (limit : Option Nat) (n : Nat) : Bool :=
  match limit with
  | none => false
  | some m => decide (m ≠ 0) && decide (m ≤ n)

/-- Loop body of `GraphAPIClient.get_paginated`: at the top of each
iteration the `max_pages` break is checked, then the next page is fetched;
a fetch failure raises (the accumulated items are lost), otherwise the
items are appended and iteration continues until no next cursor remains. -/
def get_paginated_go (max_pages : Option Nat) :
    List (PageOutcome α) → Nat → List α → Except String (List α)
  | [], _, acc => Except.ok acc
  | p :: rest, page_count, acc =>
    if truthyAndGe max_pages page_count then Except.ok acc
    else
      match p with
      | PageOutcome.err m => Except.error m
      | PageOutcome.page items =>
          get_paginated_go max_pages rest (page_count + 1) (acc ++ items)

/-- `GraphAPIClient.get_paginated`: drain a paginated endpoint, following
next cursors, with an optional page bound. -/
def get_paginated (max_pages : Option Nat) (pages : List (PageOutcome α)) :
    Except String (List α) :=
  get_paginated_go max_pages pages 0 []

/-- Modelled from the spec: "Any page fetch error aborts the whole drain,
returning items accumulated so far alongside the error (caller decides
whether to keep a partial result)."  Same drain loop, but a page failure
returns the accumulated items together with the error. -/
def drainAllSpec (max_pages : Option Nat) :
    List (PageOutcome α) → Nat → List α → List α × Option String
  | [], _, acc => (acc, none)
  | p :: rest, page_count, acc =>
    if truthyAndGe max_pages page_count then (acc, none)
    else
      match p with
      | PageOutcome.err m => (acc, some m)
      | PageOutcome.page items =>
          drainAllSpec max_pages rest (page_count + 1) (acc ++ items)

/-- View of the code's drain result as a (partial items, error) pair; a
raised error carries no items back to the caller. -/
def exceptToPair : Except String (List α) → List α × Option String
  | Except.ok l => (l, none)
  | Except.error e => ([], some e)

lemma truthyAndGe_none (n : Nat) : truthyAndGe none n = false := rfl

lemma truthyAndGe_zero (n : Nat) : truthyAndGe (some 0) n = false := by
  simp [truthyAndGe]

/-- With `max_pages = Some 0` the loop behaves exactly as with no bound. -/
lemma get_paginated_go_zero (pages : List (PageOutcome α)) :
    ∀ (c : Nat) (acc : List α),
      get_paginated_go (some 0) pages c acc = get_paginated_go none pages c acc := by
  induction pages with
  | nil => intro c acc; rfl
  | cons p rest ih =>
      intro c acc
      simp only [get_paginated_go, truthyAndGe_zero, truthyAndGe_none, if_false]
      cases p with
      | err m => rfl
      | page items => exact ih _ _

/-- With no bound, an all-successful stream is drained completely, pages
concatenated in response order. -/
lemma get_paginated_go_none_ok (itemss : List (List α)) :
    ∀ (c : Nat) (acc : List α),
      get_paginated_go none (itemss.map PageOutcome.page) c acc
        = Except.ok (acc ++ itemss.flatten) := by
  induction itemss with
  | nil => intro c acc; simp [get_paginated_go]
  | cons items rest ih =>
      intro c acc
      simp only [List.map_cons, get_paginated_go, truthyAndGe_none, if_false]
      rw [ih]
      simp [List.append_assoc]

/-- A non-zero bound `m` drains exactly the first `m - c` remaining pages
of an all-successful stream. -/
lemma get_paginated_go_pos_ok (m : Nat) (hm : m ≠ 0) (itemss : List (List α)) :
    ∀ (c : Nat) (acc : List α),
      get_paginated_go (some m) (itemss.map PageOutcome.page) c acc
        = Except.ok (acc ++ (itemss.take (m - c)).flatten) := by
  induction itemss with
  | nil => intro c acc; simp [get_paginated_go]
  | cons items rest ih =>
      intro c acc
      by_cases hc : m ≤ c
      · have hmc : m - c = 0 := Nat.sub_eq_zero_of_le hc
        simp [get_paginated_go, truthyAndGe, hm, hc, hmc]
      · have hlt : c < m := Nat.lt_of_not_le hc
        have hmc : m - c = (m - (c + 1)) + 1 := by omega
        simp only [List.map_cons, get_paginated_go, truthyAndGe, decide_eq_true_eq]
        rw [if_neg (by simp [hm, hc]), ih]
        rw [hmc]
        simp [List.append_assoc]

/-- If some page fetch in the (unbounded) drain fails, the whole call
raises that error; earlier pages' items do not appear in the result. -/
lemma get_paginated_go_err (itemss : List (List α)) (msg : String)
    (rest : List (PageOutcome α)) :
    ∀ (c : Nat) (acc : List α),
      get_paginated_go none
          (itemss.map PageOutcome.page ++ PageOutcome.err msg :: rest) c acc
        = Except.error msg := by
  induction itemss with
  | nil => intro c acc; simp [get_paginated_go, truthyAndGe_none]
  | cons items tl ih =>
      intro c acc
      simp only [List.map_cons, List.cons_append, get_paginated_go,
        truthyAndGe_none, if_false]
      exact ih _ _

end GraphClient

namespace GraphClient

/-- Concrete page stream for the C7 counterexample: one successful page of
two items, then a failing page fetch. -/
def pagesC7 : List (PageOutcome Nat) := [PageOutcome.page [1, 2], PageOutcome.err "boom"]

/-- C7 counterexample: when the second page fetch fails, the code's drain
raises the error and returns no items at all, whereas the spec's contract
returns the two items accumulated from the first page alongside the error.
At this concrete input the two disagree, so the claim as stated is false. -/
theorem get_paginated_error_discards_partial_c7 :
    exceptToPair (get_paginated none pagesC7) ≠ drainAllSpec none pagesC7 0 [] := by
  decide

/-- C7 (amended): for every drain in which some page fetch fails, the drain
aborts and the error propagates as an exception; the items accumulated from
the pages fetched so far are discarded — the caller receives only the
error, never a partial result. -/
theorem get_paginated_error_aborts_drain_c7 :
    ∀ (itemss : List (List Nat)) (msg : String) (rest : List (PageOutcome Nat)),
      get_paginated none (itemss.map PageOutcome.page ++ PageOutcome.err msg :: rest)
        = Except.error msg := by
  intro itemss msg rest
  exact get_paginated_go_err itemss msg rest 0 []

/-- C10: a drain invoked with `max_pages = 0` ignores the page bound
entirely and behaves exactly like an unbounded drain, which consumes every
page until no next cursor is returned; only a strictly positive bound `m`
stops the drain early, after exactly the first `m` pages. -/
theorem get_paginated_zero_bound_ignored_c10 :
    (∀ (pages : List (PageOutcome Nat)),
        get_paginated (some 0) pages = get_paginated none pages)
    ∧ (∀ (itemss : List (List Nat)),
        get_paginated none (itemss.map PageOutcome.page) = Except.ok itemss.flatten)
    ∧ (∀ (m : Nat) (itemss : List (List Nat)),
        get_paginated (some (m + 1)) (itemss.map PageOutcome.page)
          = Except.ok ((itemss.take (m + 1)).flatten)) := by
  refine ⟨fun pages => ?_, fun itemss => ?_, fun m itemss => ?_⟩
  · exact get_paginated_go_zero pages 0 []
  · rw [get_paginated, get_paginated_go_none_ok]
    simp
  · rw [get_paginated, get_paginated_go_pos_ok (m + 1) (Nat.succ_ne_zero m)]
    simp

end GraphClient

namespace Extractor

/-- `MessageType` enum from `src/core/models.py`. -/
inductive MessageType where
  | message
  | reply
  | system
  | meeting
deriving DecidableEq, Repr

/-- `ChannelType` enum from `src/core/models.py` (membership type). -/
inductive ChannelType where
  | standard
  | privateChannel
  | shared
deriving DecidableEq, Repr

/-- `Attachment` dataclass. -/
structure Attachment where
  id : String
  name : String
  content_type : String
  content_url : Option String
  size : Option Nat
deriving DecidableEq, Repr

/-- `Reaction` dataclass; datetimes are modelled as integers. -/
structure Reaction where
  reaction_type : String
  user_id : String
  user_name : Option String
  created_at : Option Int
deriving DecidableEq, Repr

/-- `Mention` dataclass. -/
structure Mention where
  id : Nat
  user_id : String
  user_name : String
  user_email : Option String
deriving DecidableEq, Repr

/-- `TeamsMessage` dataclass.  Datetimes are modelled as integers with the
same ordering; the `raw_data` debug dictionary is omitted (it is never read
by the extraction logic). -/
structure TeamsMessage where
  id : String
  message_type : MessageType
  created_at : Int
  last_modified_at : Option Int
  deleted_at : Option Int
  subject : Option String
  body_content : String
  body_content_type : String
  author_id : String
  author_name : String
  author_email : Option String
  team_id : String
  team_name : Option String
  channel_id : String
  channel_name : Option String
  reply_to_id : Option String
  attachments : List Attachment
  reactions : List Reaction
  mentions : List Mention
  web_url : Option String
  importance : String
deriving DecidableEq, Repr

/-- `TeamsChannel` dataclass. -/
structure TeamsChannel where
  id : String
  team_id : String
  display_name : String
  description : Option String
  channel_type : ChannelType
  web_url : Option String
  email : Option String
deriving DecidableEq, Repr

/-- `ExtractionConfig` dataclass.  `max_messages : Optional[int]` is
modelled as `Option Nat`; the float `rate_limit_pause` is omitted (it only
paces I/O). -/
structure ExtractionConfig where
  start_date : Option Int := none
  end_date : Option Int := none
  keywords : List String := []
  regex_patterns : List String := []
  author_ids : List String := []
  author_names : List String := []
  author_emails : List String := []
  team_ids : List String := []
  channel_ids : List String := []
  channel_names : List String := []
  include_replies : Bool := true
  include_system_messages : Bool := false
  include_deleted : Bool := false
  max_messages : Option Nat := none
  include_attachments : Bool := true
  include_reactions : Bool := true
  include_mentions : Bool := true
  batch_size : Nat := 50
deriving DecidableEq, Repr

/-- Substring test on character lists (Python's `needle in hay`). -/
def containsSub (needle hay : List Char) : Bool :=
  (List.range (hay.length + 1)).any
    (fun i => decide (List.take needle.length (List.drop i hay) = needle))

/-- Python `keyword.lower() in body.lower()`: case-insensitive substring
match, with `.lower()` modelled per character. -/
def containsCI (keyword body : String) : Bool :=
  containsSub (keyword.toList.map Char.toLower) (body.toList.map Char.toLower)

/-- Stage 1 of `TeamsExtractor._apply_filters`: `if config.start_date:`
keep messages with `m.created_at >= config.start_date`. -/
def stage_start_date (cfg : ExtractionConfig) (l : List TeamsMessage) : List TeamsMessage :=
  match cfg.start_date with
  | none => l
  | some d => l.filter (fun m => decide (d ≤ m.created_at))

/-- Stage 2: `if config.end_date:` keep `m.created_at <= config.end_date`. -/
def stage_end_date (cfg : ExtractionConfig) (l : List TeamsMessage) : List TeamsMessage :=
  match cfg.end_date with
  | none => l
  | some d => l.filter (fun m => decide (m.created_at ≤ d))

/-- Stage 3: `if not config.include_system_messages:` drop system messages. -/
def stage_system (cfg : ExtractionConfig) (l : List TeamsMessage) : List TeamsMessage :=
  if cfg.include_system_messages then l
  else l.filter (fun m => decide (m.message_type ≠ MessageType.system))

/-- Stage 4: `if not config.include_deleted:` keep `m.deleted_at is None`. -/
def stage_deleted (cfg : ExtractionConfig) (l : List TeamsMessage) : List TeamsMessage :=
  if cfg.include_deleted then l
  else l.filter (fun m => decide (m.deleted_at = none))

/-- Stage 5: `if config.author_ids:` keep `m.author_id in config.author_ids`. -/
def stage_author_ids (cfg : ExtractionConfig) (l : List TeamsMessage) : List TeamsMessage :=
  if cfg.author_ids.isEmpty then l
  else l.filter (fun m => cfg.author_ids.contains m.author_id)

/-- Stage 6: `if config.author_names:` keep matching author names. -/
def stage_author_names (cfg : ExtractionConfig) (l : List TeamsMessage) : List TeamsMessage :=
  if cfg.author_names.isEmpty then l
  else l.filter (fun m => cfg.author_names.contains m.author_name)

/-- Stage 7: `if config.author_emails:` keep `m.author_email and
m.author_email in config.author_emails` — a `None` or empty email is
falsy in Python and is filtered out. -/
def stage_author_emails (cfg : ExtractionConfig) (l : List TeamsMessage) : List TeamsMessage :=
  if cfg.author_emails.isEmpty then l
  else l.filter (fun m =>
    match m.author_email with
    | none => false
    | some e => decide (e ≠ "") && cfg.author_emails.contains e)

/-- Stage 8: `if config.keywords:` keep messages whose body contains some
keyword, case-insensitively. -/
def stage_keywords (cfg : ExtractionConfig) (l : List TeamsMessage) : List TeamsMessage :=
  if cfg.keywords.isEmpty then l
  else l.filter (fun m => cfg.keywords.any (fun kw => containsCI kw m.body_content))

/-- Stage 9: `if config.regex_patterns:` keep messages matched by some
pattern.  The semantics of `re.search` with `re.IGNORECASE` is supplied as
the pure function `rs : pattern → body → Bool`. -/
def stage_regex (rs : String → String → Bool) (cfg : ExtractionConfig)
    (l : List TeamsMessage) : List TeamsMessage :=
  if cfg.regex_patterns.isEmpty then l
  else l.filter (fun m => cfg.regex_patterns.any (fun p => rs p m.body_content))

/-- `TeamsExtractor._apply_filters`: sequential narrowing by each active
predicate, in source order. -/
def apply_filters (rs : String → String → Bool) (cfg : ExtractionConfig)
    (messages : List TeamsMessage) : List TeamsMessage :=
  stage_regex rs cfg
    (stage_keywords cfg
      (stage_author_emails cfg
        (stage_author_names cfg
          (stage_author_ids cfg
            (stage_deleted cfg
              (stage_system cfg
                (stage_end_date cfg
                  (stage_start_date cfg messages))))))))

lemma stage_start_date_eq_filter (cfg : ExtractionConfig) (l : List TeamsMessage) :
    stage_start_date cfg l
      = l.filter (fun m =>
          match cfg.start_date with
          | none => true
          | some d => decide (d ≤ m.created_at)) := by
  cases h : cfg.start_date <;> simp [stage_start_date, h]

lemma stage_end_date_eq_filter (cfg : ExtractionConfig) (l : List TeamsMessage) :
    stage_end_date cfg l
      = l.filter (fun m =>
          match cfg.end_date with
          | none => true
          | some d => decide (m.created_at ≤ d)) := by
  cases h : cfg.end_date <;> simp [stage_end_date, h]

lemma stage_system_eq_filter (cfg : ExtractionConfig) (l : List TeamsMessage) :
    stage_system cfg l
      = l.filter (fun m =>
          cfg.include_system_messages || decide (m.message_type ≠ MessageType.system)) := by
  cases h : cfg.include_system_messages <;> simp [stage_system, h]

lemma stage_deleted_eq_filter (cfg : ExtractionConfig) (l : List TeamsMessage) :
    stage_deleted cfg l
      = l.filter (fun m => cfg.include_deleted || decide (m.deleted_at = none)) := by
  cases h : cfg.include_deleted <;> simp [stage_deleted, h]

lemma stage_author_ids_eq_filter (cfg : ExtractionConfig) (l : List TeamsMessage) :
    stage_author_ids cfg l
      = l.filter (fun m => cfg.author_ids.isEmpty || cfg.author_ids.contains m.author_id) := by
  cases h : cfg.author_ids.isEmpty <;> simp [stage_author_ids, h]

lemma stage_author_names_eq_filter (cfg : ExtractionConfig) (l : List TeamsMessage) :
    stage_author_names cfg l
      = l.filter (fun m => cfg.author_names.isEmpty || cfg.author_names.contains m.author_name) := by
  cases h : cfg.author_names.isEmpty <;> simp [stage_author_names, h]

lemma stage_author_emails_eq_filter (cfg : ExtractionConfig) (l : List TeamsMessage) :
    stage_author_emails cfg l
      = l.filter (fun m =>
          cfg.author_emails.isEmpty ||
            (match m.author_email with
             | none => false
             | some e => decide (e ≠ "") && cfg.author_emails.contains e)) := by
  cases h : cfg.author_emails.isEmpty <;> simp [stage_author_emails, h]

lemma stage_keywords_eq_filter (cfg : ExtractionConfig) (l : List TeamsMessage) :
    stage_keywords cfg l
      = l.filter (fun m =>
          cfg.keywords.isEmpty || cfg.keywords.any (fun kw => containsCI kw m.body_content)) := by
  cases h : cfg.keywords.isEmpty <;> simp [stage_keywords, h]

lemma stage_regex_eq_filter (rs : String → String → Bool) (cfg : ExtractionConfig)
    (l : List TeamsMessage) :
    stage_regex rs cfg l
      = l.filter (fun m =>
          cfg.regex_patterns.isEmpty ||
            cfg.regex_patterns.any (fun p => rs p m.body_content)) := by
  cases h : cfg.regex_patterns.isEmpty <;> simp [stage_regex, h]

/-- The whole pipeline is a single `List.filter` by one pure predicate. -/
lemma apply_filters_eq_filter (rs : String → String → Bool) (cfg : ExtractionConfig) :
    ∃ p : TeamsMessage → Bool, ∀ l, apply_filters rs cfg l = l.filter p := by
  refine ⟨?_, fun l => ?_⟩
  · exact fun m =>
      ((((((((match cfg.start_date with
              | none => true
              | some d => decide (d ≤ m.created_at)) &&
            (match cfg.end_date with
              | none => true
              | some d => decide (m.created_at ≤ d))) &&
           (cfg.include_system_messages || decide (m.message_type ≠ MessageType.system))) &&
          (cfg.include_deleted || decide (m.deleted_at = none))) &&
         (cfg.author_ids.isEmpty || cfg.author_ids.contains m.author_id)) &&
        (cfg.author_names.isEmpty || cfg.author_names.contains m.author_name)) &&
       (cfg.author_emails.isEmpty ||
         (match m.author_email with
          | none => false
          | some e => decide (e ≠ "") && cfg.author_emails.contains e))) &&
      (cfg.keywords.isEmpty || cfg.keywords.any (fun kw => containsCI kw m.body_content))) &&
      (cfg.regex_patterns.isEmpty || cfg.regex_patterns.any (fun p => rs p m.body_content))
  · rw [apply_filters, stage_start_date_eq_filter, stage_end_date_eq_filter,
      stage_system_eq_filter, stage_deleted_eq_filter, stage_author_ids_eq_filter,
      stage_author_names_eq_filter, stage_author_emails_eq_filter,
      stage_keywords_eq_filter, stage_regex_eq_filter,
      List.filter_filter, List.filter_filter, List.filter_filter, List.filter_filter,
      List.filter_filter, List.filter_filter, List.filter_filter, List.filter_filter]
    apply List.filter_congr
    intro m _
    simp only [Bool.and_comm, Bool.and_assoc, Bool.and_left_comm]

/-- C8: for every message list and filter configuration (and any semantics
of the regex matcher), `_apply_filters` is idempotent and order-preserving:
applying it twice gives the same result as once, and the output is a
subsequence of the input in the input's order. -/
theorem apply_filters_idempotent_order_preserving_c8 :
    ∀ (rs : String → String → Bool) (cfg : ExtractionConfig) (l : List TeamsMessage),
      apply_filters rs cfg (apply_filters rs cfg l) = apply_filters rs cfg l
      ∧ (apply_filters rs cfg l).Sublist l := by
  intro rs cfg l
  obtain ⟨p, hp⟩ := apply_filters_eq_filter rs cfg
  constructor
  · rw [hp, hp, List.filter_filter]
    apply List.filter_congr
    intro m _
    exact Bool.and_self _
  · rw [hp]
    exact List.filter_sublist l

end Extractor

namespace Extractor

/-- Raw team item consumed by discovery: `team["id"]` and
`team.get("displayName", "Unknown")`. -/
structure TeamData where
  id : String
  displayName : String
deriving DecidableEq, Repr

/-- Raw channel item returned by `get_team_channels`, before
`TeamsChannel.from_dict`. -/
structure ChannelData where
  id : String
  displayName : String
  description : Option String
  membershipType : ChannelType
  webUrl : Option String
  email : Option String
deriving DecidableEq, Repr

/-- `TeamsChannel.from_dict`. -/
def TeamsChannel.from_dict (data : ChannelData) (team_id : String) : TeamsChannel :=
  ⟨data.id, team_id, data.displayName, data.description, data.membershipType,
    data.webUrl, data.email⟩

/-- `TeamsExtractor._discover_channels`: enumerate teams, apply the team-id
allow-list, list each team's channels — a `GraphAPIError` there skips the
team with only a logged warning —, then apply channel id/name allow-lists. -/
def discover_channels (cfg : ExtractionConfig)
    (get_team_channels : String → Except String (List ChannelData)) :
    List TeamData → List TeamsChannel
  | [] => []
  | t :: rest =>
    if !cfg.team_ids.isEmpty && !cfg.team_ids.contains t.id then
      discover_channels cfg get_team_channels rest
    else
      match get_team_channels t.id with
      | Except.error _ => discover_channels cfg get_team_channels rest
      | Except.ok chans =>
          ((chans.map (fun ch => TeamsChannel.from_dict ch t.id)).filter
            (fun ch =>
              (cfg.channel_ids.isEmpty || cfg.channel_ids.contains ch.id) &&
              (cfg.channel_names.isEmpty || cfg.channel_names.contains ch.display_name)))
          ++ discover_channels cfg get_team_channels rest

/-- Result of `extract_messages`; the wall-clock timestamps and the echoed
config are omitted.  `fetched_channels` is ghost instrumentation recording
the ids of the channels whose fetch was actually attempted, in order. -/
structure ExtractionResult where
  messages : List TeamsMessage
  total_extracted : Nat
  errors : List String
  fetched_channels : List String
deriving DecidableEq, Repr

/-- Per-channel loop of `TeamsExtractor.extract_messages`:
`_extract_channel_messages` is the environment `fetch`; a channel-level
exception is recorded in `errors` and the loop continues with the next
channel; after a successful channel, `if config.max_messages and
len(all_messages) >= config.max_messages:` truncates and stops. -/
def extract_loop (rs : String → String → Bool) (cfg : ExtractionConfig)
    (fetch : TeamsChannel → Except String (List TeamsMessage)) :
    List TeamsChannel → List TeamsMessage → List String → List String →
      List TeamsMessage × List String × List String
  | [], acc, errs, fetched => (acc, errs, fetched)
  | ch :: rest, acc, errs, fetched =>
    match fetch ch with
    | Except.error e =>
        extract_loop rs cfg fetch rest acc
          (errs ++ ["Error extracting from channel " ++ ch.display_name ++ ": " ++ e])
          (fetched ++ [ch.id])
    | Except.ok channel_messages =>
        let acc2 := acc ++ apply_filters rs cfg channel_messages
        match cfg.max_messages with
        | some m =>
            if decide (m ≠ 0) && decide (m ≤ acc2.length) then
              (acc2.take m, errs, fetched ++ [ch.id])
            else
              extract_loop rs cfg fetch rest acc2 errs (fetched ++ [ch.id])
        | none => extract_loop rs cfg fetch rest acc2 errs (fetched ++ [ch.id])

/-- `TeamsExtractor.extract_messages`: discovery, then the per-channel
loop.  A failure of `get_teams` (discovery itself) is caught by the outer
handler and recorded as a fatal error, yielding an empty result. -/
def extract_messages (rs : String → String → Bool) (cfg : ExtractionConfig)
    (teams : Except String (List TeamData))
    (get_team_channels : String → Except String (List ChannelData))
    (fetch : TeamsChannel → Except String (List TeamsMessage)) : ExtractionResult :=
  match teams with
  | Except.error e =>
      { messages := [], total_extracted := 0,
        errors := ["Fatal error during extraction: " ++ e], fetched_channels := [] }
  | Except.ok ts =>
      let channels := discover_channels cfg get_team_channels ts
      let r := extract_loop rs cfg fetch channels [] [] []
      { messages := r.1, total_extracted := r.1.length,
        errors := r.2.1, fetched_channels := r.2.2 }

/-- While the accumulator is strictly below a non-zero limit `m`, the loop
never returns more than `m` messages. -/
lemma extract_loop_length_le (rs : String → String → Bool) (cfg : ExtractionConfig)
    (fetch : TeamsChannel → Except String (List TeamsMessage)) (m : Nat)
    (hcfg : cfg.max_messages = some m) (hm : m ≠ 0) :
    ∀ (chans : List TeamsChannel) (acc : List TeamsMessage)
      (errs fetched : List String), acc.length < m →
      (extract_loop rs cfg fetch chans acc errs fetched).1.length ≤ m := by
  intro chans
  induction chans with
  | nil =>
      intro acc errs fetched hacc
      simpa [extract_loop] using Nat.le_of_lt hacc
  | cons ch rest ih =>
      intro acc errs fetched hacc
      simp only [extract_loop]
      cases hfetch : fetch ch with
      | error e => exact ih _ _ _ hacc
      | ok msgs =>
          simp only [hcfg]
          by_cases hge : m ≤ (acc ++ apply_filters rs cfg msgs).length
          · have hcond : (decide (m ≠ 0) && decide (m ≤ (acc ++ apply_filters rs cfg msgs).length)) = true := by
              rw [decide_eq_true hm, decide_eq_true hge]; rfl
            rw [if_pos hcond]
            simp [List.length_take]
          · have hcond : (decide (m ≠ 0) && decide (m ≤ (acc ++ apply_filters rs cfg msgs).length)) = false := by
              rw [decide_eq_false hge, Bool.and_false]
            rw [if_neg (by simp only [hcond]; exact Bool.false_ne_true)]
            exact ih _ _ _ (Nat.lt_of_not_le hge)

/-- Concrete scenario data for C6: one team with three channels, each
yielding four messages that pass an otherwise-empty filter with
`max_messages = 5`. -/
def rs6 : String → String → Bool := fun _ _ => false

def cfg6 : ExtractionConfig := { max_messages := some 5 }

def teams6 : List TeamData := [⟨"t1", "Team One"⟩]

def chD6 (i : String) : ChannelData := ⟨i, "Chan " ++ i, none, ChannelType.standard, none, none⟩

def gtc6 : String → Except String (List ChannelData) :=
  fun _ => Except.ok [chD6 "c1", chD6 "c2", chD6 "c3"]

def msg6 (i : String) : TeamsMessage :=
  ⟨i, MessageType.message, 0, none, none, none, "body", "text", "a1", "Alice", none,
    "t1", none, "c", none, none, [], [], [], none, "normal"⟩

def fetch6 : TeamsChannel → Except String (List TeamsMessage) :=
  fun ch => Except.ok
    [msg6 (ch.id ++ "-1"), msg6 (ch.id ++ "-2"), msg6 (ch.id ++ "-3"), msg6 (ch.id ++ "-4")]

/-- C6: with a configured (non-zero) `max_messages` limit `m`, the result
never exceeds `m` messages; at the channel whose accumulated total first
reaches `m` the loop returns exactly the first `m` messages and iterates no
further channel; and in the concrete scenario (`max_messages = 5`, three
channels of four matching messages each) the result has exactly 5 messages
with only the first two channels fetched — the third is never fetched. -/
theorem extract_truncates_at_max_messages_c6 :
    (∀ (rs : String → String → Bool) (cfg : ExtractionConfig) (m : Nat)
        (teams : List TeamData)
        (gtc : String → Except String (List ChannelData))
        (fetch : TeamsChannel → Except String (List TeamsMessage)),
      cfg.max_messages = some m → 0 < m →
      (extract_messages rs cfg (Except.ok teams) gtc fetch).messages.length ≤ m)
    ∧ (∀ (rs : String → String → Bool) (cfg : ExtractionConfig) (m : Nat)
        (fetch : TeamsChannel → Except String (List TeamsMessage))
        (ch : TeamsChannel) (rest : List TeamsChannel) (acc : List TeamsMessage)
        (errs fetched : List String) (msgs : List TeamsMessage),
      cfg.max_messages = some m → 0 < m → fetch ch = Except.ok msgs →
      m ≤ (acc ++ apply_filters rs cfg msgs).length →
      extract_loop rs cfg fetch (ch :: rest) acc errs fetched
        = ((acc ++ apply_filters rs cfg msgs).take m, errs, fetched ++ [ch.id]))
    ∧ ((extract_messages rs6 cfg6 (Except.ok teams6) gtc6 fetch6).messages.length = 5
        ∧ (extract_messages rs6 cfg6 (Except.ok teams6) gtc6 fetch6).fetched_channels
            = ["c1", "c2"]) := by
  refine ⟨?_, ?_, by decide, by decide⟩
  · intro rs cfg m teams gtc fetch hcfg hm
    simp only [extract_messages]
    exact extract_loop_length_le rs cfg fetch m hcfg (Nat.pos_iff_ne_zero.mp hm) _ _ _ _
      (by simpa using hm)
  · intro rs cfg m fetch ch rest acc errs fetched msgs hcfg hm hfetch hge
    have hcond : (decide (m ≠ 0) && decide (m ≤ (acc ++ apply_filters rs cfg msgs).length)) = true := by
      rw [decide_eq_true (Nat.pos_iff_ne_zero.mp hm), decide_eq_true hge]; rfl
    simp only [extract_loop, hfetch, hcfg]
    rw [if_pos hcond]

/-- C6 witness: the general bounds applied at the concrete scenario. -/
theorem extract_truncates_at_max_messages_c6_witness :
    (extract_messages rs6 cfg6 (Except.ok teams6) gtc6 fetch6).messages.length ≤ 5
    ∧ extract_loop rs6 cfg6 fetch6
        [TeamsChannel.from_dict (chD6 "c2") "t1"]
        [msg6 "x1", msg6 "x2", msg6 "x3", msg6 "x4"] [] ["c1"]
      = (([msg6 "x1", msg6 "x2", msg6 "x3", msg6 "x4"]
            ++ apply_filters rs6 cfg6
                [msg6 "c2-1", msg6 "c2-2", msg6 "c2-3", msg6 "c2-4"]).take 5,
          [], ["c1", "c2"]) := by
  constructor
  · exact extract_truncates_at_max_messages_c6.1 rs6 cfg6 5 teams6 gtc6 fetch6 rfl
      (by decide)
  · exact extract_truncates_at_max_messages_c6.2.1 rs6 cfg6 5 fetch6
      (TeamsChannel.from_dict (chD6 "c2") "t1") [] _ [] ["c1"] _ rfl (by decide)
      rfl (by decide)

end Extractor

namespace Processor

/-- `QuotedRequest` pydantic model from `mcp/agent.py`. -/
structure QuotedRequest where
  author : Option String
  text : Option String
deriving DecidableEq, Repr

/-- `TeamsResolution` bundle from `mcp/agent.py`.  The free-form
`classification` dictionary is modelled opaquely by its JSON encoding. -/
structure TeamsResolution where
  channel : String
  messageId : Option String
  author : String
  timestamp : Option String
  classification : String
  resolutionText : String
  quotedRequest : Option QuotedRequest
  permalink : Option String
deriving DecidableEq, Repr

/-- `JiraPayload` from `mcp/agent.py`; free-form dictionaries are modelled
opaquely by their JSON encodings. -/
structure JiraPayload where
  issue_type : String
  summary : String
  description : String
  labels : List String
  custom_fields : String
  comment : Option String
  metadata : String
deriving DecidableEq, Repr

/-- One row of the `messages` table.  JSON-encoded columns hold the decoded
values themselves: the `json.dumps`/`json.loads` round-trip is modelled as
the identity. -/
structure MessageRecord where
  id : Nat
  message_id : Option String
  channel : String
  author : String
  timestamp : Option String
  classification_json : String
  resolution_text : String
  quoted_request_json : Option QuotedRequest
  permalink : Option String
  status : String
  jira_payload_json : Option JiraPayload
  n8n_response_code : Option Nat
  n8n_response_body : Option String
  error : Option String
  created_at : String
  updated_at : String
deriving DecidableEq, Repr

/-- The SQLite store: the rows plus the AUTOINCREMENT counter.
`status_log` is ghost instrumentation recording every status value ever
written to the `status` column, in write order, so that state-machine
paths can be stated; it has no counterpart in the schema and no operation
reads it. -/
structure DB where
  rows : List MessageRecord
  next_id : Nat
  status_log : List (Nat × String)
deriving DecidableEq, Repr

/-- Fresh database as created by `init_db`. -/
def init_db : DB := ⟨[], 1, []⟩

/-- `sqlite3.IntegrityError`: the partial unique index on `message_id`
rejects a duplicate non-null external id. -/
inductive InsertError where
  | integrityError
deriving DecidableEq, Repr

def hasMessageId (db : DB) (mid : String) : Bool :=
  db.rows.any (fun r => r.message_id = some mid)

def insert_row (bundle : TeamsResolution) (now : String) (db : DB) : Nat × DB :=
  let rid := db.next_id
  (rid,
    ⟨db.rows ++
      [⟨rid, bundle.messageId, bundle.channel, bundle.author, bundle.timestamp,
        bundle.classification, bundle.resolutionText, bundle.quotedRequest,
        bundle.permalink, "received", none, none, none, none, now, now⟩],
      db.next_id + 1,
      db.status_log ++ [(rid, "received")]⟩)

/-- `insert_message`: insert a new row with status `received` and both
timestamps `now`; a duplicate non-null `message_id` violates the unique
index and raises `sqlite3.IntegrityError`. -/
def insert_message (bundle : TeamsResolution) (now : String) (db : DB) :
    Except InsertError (Nat × DB) :=
  match bundle.messageId with
  | some mid =>
      if hasMessageId db mid then Except.error InsertError.integrityError
      else Except.ok (insert_row bundle now db)
  | none => Except.ok (insert_row bundle now db)

/-- Per-row effect of `update_message`: `updated_at` is always set; every
other column only when the corresponding keyword argument is not `None`. -/
def updateRow (status : Option String) (jira_payload : Option JiraPayload)
    (n8n_code : Option Nat) (n8n_body : Option String) (error : Option String)
    (now : String) (r : MessageRecord) : MessageRecord :=
  { r with
    updated_at := now
    status := status.getD r.status
    jira_payload_json :=
      match jira_payload with | some p => some p | none => r.jira_payload_json
    n8n_response_code :=
      match n8n_code with | some c => some c | none => r.n8n_response_code
    n8n_response_body :=
      match n8n_body with | some b => some b | none => r.n8n_response_body
    error := match error with | some e => some e | none => r.error }

def rowExists (db : DB) (record_id : Nat) : Bool :=
  db.rows.any (fun r => r.id = record_id)

/-- `update_message`: partial UPDATE by id.  An absent id matches zero rows
and the call still returns successfully. -/
def update_message (record_id : Nat) (status : Option String)
    (jira_payload : Option JiraPayload) (n8n_code : Option Nat)
    (n8n_body : Option String) (error : Option String) (now : String)
    (db : DB) : DB :=
  { rows := db.rows.map (fun r =>
      if r.id = record_id then
        updateRow status jira_payload n8n_code n8n_body error now r
      else r)
    next_id := db.next_id
    status_log := db.status_log ++
      (match status with
       | some s => if rowExists db record_id then [(record_id, s)] else []
       | none => []) }

/-- `fetch_message`: SELECT by id; `none` models the raised `KeyError`. -/
def fetch_message (record_id : Nat) (db : DB) : Option MessageRecord :=
  db.rows.find? (fun r => r.id = record_id)

/-- `NotFoundError` of the spec's store contract. -/
inductive StoreError where
  | notFound
deriving DecidableEq, Repr

/-- Modelled from the spec: "`UpdateStatus(id, status, payload?,
downstreamCode?, downstreamBody?, error?) -> error`: partial update; always
bumps `updatedAt`; fails with `NotFoundError` if id absent."  The same
partial update as the code, except that an absent id is an error. -/
def update_message_spec (record_id : Nat) (status : Option String)
    (jira_payload : Option JiraPayload) (n8n_code : Option Nat)
    (n8n_body : Option String) (error : Option String) (now : String)
    (db : DB) : Except StoreError DB :=
  if rowExists db record_id then
    Except.ok (update_message record_id status jira_payload n8n_code n8n_body error now db)
  else Except.error StoreError.notFound

/-- Environment configuration `N8N_WEBHOOK_URL` / `N8N_API_KEY`. -/
structure N8nConfig where
  webhook_url : Option String
  api_key : Option String
deriving DecidableEq, Repr

/-- Python truthiness `if not N8N_WEBHOOK_URL:` — unset and empty are both
falsy. -/
def urlTruthy : Option String → Bool
  | none => false
  | some s => decide (s ≠ "")

/-- Outcome of the webhook POST issued by `forward_to_n8n`: an HTTP
response, or a transport-level exception. -/
inductive ForwardOutcome where
  | response (status_code : Nat) (text : String)
  | exn (msg : String)
deriving DecidableEq, Repr

/-- Outcome of `agent.infer(bundle)`: a payload, an `AgentError`, or any
other exception. -/
inductive ClassifyOutcome where
  | ok (payload : JiraPayload)
  | agentError (msg : String)
  | exn (msg : String)
deriving DecidableEq, Repr

/-- `forward_to_n8n`: if no webhook URL is configured, skip silently;
otherwise POST and persist `forwarded` (status < 400) or `n8n_error`
(status >= 400) together with the downstream code and the body truncated
to 2000 characters; a status >= 400 then raises `RuntimeError`, and the
handler at the bottom re-raises every exception to the caller after
logging it.  Returns the updated store and the propagated exception
message, if any. -/
def forward_to_n8n (cfg : N8nConfig) (outcome : ForwardOutcome)
    (record_id : Nat) (now : String) (db : DB) : DB × Option String :=
  if urlTruthy cfg.webhook_url = false then (db, none)
  else
    match outcome with
    | ForwardOutcome.response code text =>
        let db2 := update_message record_id
          (some (if code < 400 then "forwarded" else "n8n_error"))
          none (some code) (some (text.take 2000)) none now db
        if 400 ≤ code then
          (db2, some ("n8n responded with " ++ toString code ++ ": " ++ text))
        else (db2, none)
    | ForwardOutcome.exn m => (db, some m)

/-- Environment of one run of `process_message`: the classification
outcome and, if forwarding is reached, the forward outcome. -/
structure ProcessEnv where
  classify : ClassifyOutcome
  forward : ForwardOutcome
deriving DecidableEq, Repr

/-- `process_message`: classify; on success persist `processed` with the
payload and attempt the forward; an `AgentError` persists `agent_error`;
any other exception — including the failure raised out of
`forward_to_n8n` — is caught by the final generic handler, which persists
`failed` with the exception message. -/
def process_message (cfg : N8nConfig) (env : ProcessEnv) (record_id : Nat)
    (now : String) (db : DB) : DB :=
  match env.classify with
  | ClassifyOutcome.ok payload =>
      let db1 := update_message record_id (some "processed") (some payload)
        none none none now db
      let fr := forward_to_n8n cfg env.forward record_id now db1
      match fr.2 with
      | none => fr.1
      | some m => update_message record_id (some "failed") none none none (some m) now fr.1
  | ClassifyOutcome.agentError m =>
      update_message record_id (some "agent_error") none none none (some m) now db
  | ClassifyOutcome.exn m =>
      update_message record_id (some "failed") none none none (some m) now db

/-- Outcome of the `/ingest` handler as observed by the HTTP client,
together with the store and the fire-and-forget task it leaves behind.  An
uncaught `sqlite3.IntegrityError` surfaces as the framework's generic 500
response. -/
structure IngestResult where
  http_status : Nat
  body_id : Option Nat
  body_status : Option String
  db : DB
  task : Option (Nat × TeamsResolution)
deriving DecidableEq, Repr

/-- The `/ingest` endpoint: insert, return `202 {id, status: "queued"}`
immediately and launch `process_message` as a detached task; the duplicate
`IntegrityError` is not caught anywhere in the handler. -/
def ingest (bundle : TeamsResolution) (now : String) (db : DB) : IngestResult :=
  match insert_message bundle now db with
  | Except.ok (rid, db2) => ⟨202, some rid, some "queued", db2, some (rid, bundle)⟩
  | Except.error InsertError.integrityError => ⟨500, none, none, db, none⟩

/-- Outcome of the `/messages/{id}/retry` handler. -/
structure RetryResult where
  http_status : Nat
  db : DB
  task : Option (Nat × TeamsResolution)
deriving DecidableEq, Repr

/-- `retry_message`: 404 when the id is unknown; otherwise reconstruct the
bundle from the persisted row, update the status to `queued` while passing
`error=None` — which leaves the error column untouched —, and launch
`process_message` again with the reconstructed bundle. -/
def retry_message (record_id : Nat) (now : String) (db : DB) : RetryResult :=
  match fetch_message record_id db with
  | none => ⟨404, db, none⟩
  | some row =>
      let bundle : TeamsResolution :=
        ⟨row.channel, row.message_id, row.author, row.timestamp,
          row.classification_json, row.resolution_text, row.quoted_request_json,
          row.permalink⟩
      let db2 := update_message record_id (some "queued") none none none none now db
      ⟨200, db2, some (record_id, bundle)⟩

end Processor


namespace Processor

lemma updateRow_id (status : Option String) (jira_payload : Option JiraPayload)
    (n8n_code : Option Nat) (n8n_body : Option String) (error : Option String)
    (now : String) (r : MessageRecord) :
    (updateRow status jira_payload n8n_code n8n_body error now r).id = r.id := rfl

/-- An update whose id matches no row leaves the store unchanged (the
`UPDATE` statement touches zero rows and raises nothing). -/
lemma update_message_absent (record_id : Nat) (status : Option String)
    (jira_payload : Option JiraPayload) (n8n_code : Option Nat)
    (n8n_body : Option String) (error : Option String) (now : String) (db : DB)
    (h : rowExists db record_id = false) :
    update_message record_id status jira_payload n8n_code n8n_body error now db = db := by
  have hr : ∀ r ∈ db.rows, ¬(r.id = record_id) := by
    intro r hrmem
    have := (List.any_eq_false.mp h) r hrmem
    simpa using this
  cases db with
  | mk rows next_id status_log =>
      simp only [update_message, DB.mk.injEq, true_and, and_true, eq_self_iff_true]
      refine ⟨?_, ?_⟩
      · have : rows.map (fun r =>
            if r.id = record_id then
              updateRow status jira_payload n8n_code n8n_body error now r
            else r) = rows.map id := by
          apply List.map_congr_left
          intro r hrmem
          simp [hr r hrmem]
        rw [this, List.map_id]
      · cases status with
        | none => simp
        | some s => simp [h]

/-- Lookup commutes with mapping an id-preserving row transformation. -/
lemma find?_map_of_id (g : MessageRecord → MessageRecord)
    (hg : ∀ r, (g r).id = r.id) (j : Nat) :
    ∀ rows : List MessageRecord,
      (rows.map g).find? (fun r => r.id = j)
        = (rows.find? (fun r => r.id = j)).map g := by
  intro rows
  induction rows with
  | nil => rfl
  | cons r rest ih =>
      simp only [List.map_cons, List.find?_cons, hg]
      cases hD : decide (r.id = j) with
      | true => simp
      | false => simpa using ih

/-- Effect of `update_message` on a lookup: the looked-up row is
transformed exactly when it is the updated one. -/
lemma fetch_update (j record_id : Nat) (status : Option String)
    (jira_payload : Option JiraPayload) (n8n_code : Option Nat)
    (n8n_body : Option String) (error : Option String) (now : String) (db : DB) :
    fetch_message j (update_message record_id status jira_payload n8n_code n8n_body error now db)
      = (fetch_message j db).map (fun r =>
          if r.id = record_id then
            updateRow status jira_payload n8n_code n8n_body error now r
          else r) := by
  simp only [fetch_message, update_message]
  apply find?_map_of_id
  intro r
  by_cases hid : r.id = record_id <;> simp [hid, updateRow_id]

lemma fetch_update_self (record_id : Nat) (status : Option String)
    (jira_payload : Option JiraPayload) (n8n_code : Option Nat)
    (n8n_body : Option String) (error : Option String) (now : String) (db : DB)
    (row : MessageRecord) (h : fetch_message record_id db = some row) :
    fetch_message record_id (update_message record_id status jira_payload n8n_code n8n_body error now db)
      = some (updateRow status jira_payload n8n_code n8n_body error now row) := by
  rw [fetch_update, h]
  have hid : row.id = record_id := by simpa using List.find?_some h
  simp [hid]

lemma fetch_update_other (j record_id : Nat) (status : Option String)
    (jira_payload : Option JiraPayload) (n8n_code : Option Nat)
    (n8n_body : Option String) (error : Option String) (now : String) (db : DB)
    (h : j ≠ record_id) :
    fetch_message j (update_message record_id status jira_payload n8n_code n8n_body error now db)
      = fetch_message j db := by
  rw [fetch_update]
  cases hf : fetch_message j db with
  | none => rfl
  | some r =>
      have hid : r.id = j := by simpa using List.find?_some hf
      simp [hid, h]

/-- `update_message` never creates or removes a row. -/
lemma rowExists_update (j record_id : Nat) (status : Option String)
    (jira_payload : Option JiraPayload) (n8n_code : Option Nat)
    (n8n_body : Option String) (error : Option String) (now : String) (db : DB) :
    rowExists (update_message record_id status jira_payload n8n_code n8n_body error now db) j
      = rowExists db j := by
  simp only [rowExists, update_message, List.any_map]
  apply congrArg
  funext r
  by_cases hid : r.id = record_id <;> simp [hid, updateRow_id, Function.comp]

lemma rowExists_eq_isSome (db : DB) (j : Nat) :
    rowExists db j = (fetch_message j db).isSome := by
  simp only [rowExists, fetch_message]
  induction db.rows with
  | nil => rfl
  | cons r rest ih =>
      simp only [List.any_cons, List.find?_cons]
      cases hD : decide (r.id = j) with
      | true => simp
      | false => simpa using ih

lemma rowExists_iff (db : DB) (j : Nat) :
    rowExists db j = true ↔ ∃ row, fetch_message j db = some row := by
  rw [rowExists_eq_isSome, Option.isSome_iff_exists]

/-- The row a fresh insert creates, and where it lands. -/
lemma fetch_insert_row (bundle : TeamsResolution) (now : String) (db : DB)
    (h : ∀ r ∈ db.rows, r.id ≠ db.next_id) :
    fetch_message db.next_id (insert_row bundle now db).2
      = some ⟨db.next_id, bundle.messageId, bundle.channel, bundle.author,
          bundle.timestamp, bundle.classification, bundle.resolutionText,
          bundle.quotedRequest, bundle.permalink, "received", none, none, none,
          none, now, now⟩ := by
  simp only [insert_row, fetch_message, List.find?_append]
  have hnone : db.rows.find? (fun r => r.id = db.next_id) = none := by
    rw [List.find?_eq_none]
    intro r hrmem
    simp [h r hrmem]
  rw [hnone]
  simp

end Processor

namespace Processor

/-- Concrete bundle used by the processor claims' concrete runs. -/
def b0 : TeamsResolution :=
  ⟨"Ops", some "msg-1", "Alice", none, "ctype", "Deployed v1.2.3", none, none⟩

/-- A fresh store after ingesting `b0` (record id 1, status `received`). -/
def rIng1 : IngestResult := ingest b0 "t0" init_db

/-- C5 counterexample: on the one-record store, updating the absent id 2
succeeds as a silent no-op — the store is returned unchanged and no
`NotFoundError` exists anywhere in the code path — while the spec's
`UpdateStatus` contract demands a `NotFoundError` failure.  The claim as
stated is therefore false at this concrete input. -/
theorem update_message_absent_noop_c5_cex :
    update_message 2 (some "processed") none none none none "t1" rIng1.db = rIng1.db
    ∧ update_message_spec 2 (some "processed") none none none none "t1" rIng1.db
        = Except.error StoreError.notFound
    ∧ Except.ok (update_message 2 (some "processed") none none none none "t1" rIng1.db)
        ≠ update_message_spec 2 (some "processed") none none none none "t1" rIng1.db := by
  have h2 : update_message_spec 2 (some "processed") none none none none "t1" rIng1.db
      = Except.error StoreError.notFound := by rfl
  refine ⟨by decide, h2, ?_⟩
  rw [h2]
  intro hcontra
  exact Except.noConfusion hcontra

/-- C5 (amended): `update_message` with an absent id is a silent no-op —
it returns successfully and the store is unchanged, with no
`NotFoundError` —; with a present id it changes exactly the supplied
fields, always sets `updated_at` to the current time, and leaves every
other record untouched. -/
theorem update_message_partial_update_c5 :
    ∀ (record_id : Nat) (st : Option String) (jp : Option JiraPayload)
      (nc : Option Nat) (nb : Option String) (er : Option String)
      (now : String) (db : DB),
    (rowExists db record_id = false →
        update_message record_id st jp nc nb er now db = db)
    ∧ (∀ row, fetch_message record_id db = some row →
        fetch_message record_id (update_message record_id st jp nc nb er now db)
          = some { row with
              updated_at := now
              status := st.getD row.status
              jira_payload_json := jp.or row.jira_payload_json
              n8n_response_code := nc.or row.n8n_response_code
              n8n_response_body := nb.or row.n8n_response_body
              error := er.or row.error })
    ∧ (∀ j, j ≠ record_id →
        fetch_message j (update_message record_id st jp nc nb er now db)
          = fetch_message j db) := by
  intro record_id st jp nc nb er now db
  refine ⟨fun h => update_message_absent record_id st jp nc nb er now db h,
    fun row hrow => ?_, fun j hj => fetch_update_other j record_id st jp nc nb er now db hj⟩
  rw [fetch_update_self record_id st jp nc nb er now db row hrow]
  cases st <;> cases jp <;> cases nc <;> cases nb <;> cases er <;> rfl

/-- C5 witness: the amended statement applied to the concrete one-record
store, at an absent id (2) and at the present id (1). -/
theorem update_message_partial_update_c5_witness :
    (update_message 2 (some "failed") none none none none "t9" rIng1.db = rIng1.db)
    ∧ (fetch_message 1 (update_message 1 (some "failed") none none none none "t9" rIng1.db)
        = some { (⟨1, some "msg-1", "Ops", "Alice", none, "ctype", "Deployed v1.2.3",
                    none, none, "received", none, none, none, none, "t0", "t0"⟩ : MessageRecord) with
            updated_at := "t9"
            status := (some "failed").getD "received"
            jira_payload_json := Option.or none none
            n8n_response_code := Option.or none none
            n8n_response_body := Option.or none none
            error := Option.or none none })
    ∧ (fetch_message 2 (update_message 1 (some "failed") none none none none "t9" rIng1.db)
        = fetch_message 2 rIng1.db) := by
  refine ⟨(update_message_partial_update_c5 2 (some "failed") none none none none "t9" rIng1.db).1
      (by decide),
    (update_message_partial_update_c5 1 (some "failed") none none none none "t9" rIng1.db).2.1
      _ (by decide),
    (update_message_partial_update_c5 1 (some "failed") none none none none "t9" rIng1.db).2.2
      2 (by decide)⟩

/-- The same store ingested twice: the second ingest hits the unique index. -/
def rIng2 : IngestResult := ingest b0 "t1" rIng1.db

/-- C4 counterexample: re-ingesting the same `messageId` surfaces as the
framework's generic 500 server error — not a 409-equivalent client error
(4xx) — although no new record is created.  The claim as stated is
therefore false at this concrete input. -/
theorem ingest_duplicate_is_500_c4_cex :
    rIng2.http_status = 500
    ∧ ¬(400 ≤ rIng2.http_status ∧ rIng2.http_status < 500)
    ∧ rIng2.db = rIng1.db
    ∧ rIng2.task = none := by
  decide

/-- C4 (amended): ingesting a bundle whose non-null `messageId` is already
present makes `insert_message` raise `sqlite3.IntegrityError`, which no
handler catches, so the caller receives a 500 server error (not a
409-equivalent client error); no new record is created and no processing
task is launched.  An ingest with a previously unseen (or null)
`messageId` succeeds: 202 with `{id, status: "queued"}`, one new row in
status `received`, and a detached processing task. -/
theorem ingest_duplicate_server_error_c4 :
    (∀ (bundle : TeamsResolution) (now : String) (db : DB) (mid : String),
      bundle.messageId = some mid → hasMessageId db mid = true →
      ingest bundle now db = ⟨500, none, none, db, none⟩)
    ∧ (∀ (bundle : TeamsResolution) (now : String) (db : DB),
        (∀ mid, bundle.messageId = some mid → hasMessageId db mid = false) →
        (∀ r ∈ db.rows, r.id ≠ db.next_id) →
        (ingest bundle now db).http_status = 202
        ∧ (ingest bundle now db).body_id = some db.next_id
        ∧ (ingest bundle now db).body_status = some "queued"
        ∧ (ingest bundle now db).db.rows.length = db.rows.length + 1
        ∧ (fetch_message db.next_id (ingest bundle now db).db).map MessageRecord.status
            = some "received"
        ∧ (ingest bundle now db).task = some (db.next_id, bundle)) := by
  constructor
  · intro bundle now db mid hmid hdup
    simp [ingest, insert_message, hmid, hdup]
  · intro bundle now db hfresh hids
    have hok : insert_message bundle now db = Except.ok (insert_row bundle now db) := by
      cases hmid : bundle.messageId with
      | none => simp [insert_message, hmid]
      | some mid => simp [insert_message, hmid, hfresh mid hmid]
    have htail : fetch_message db.next_id (insert_row bundle now db).2
        = some ⟨db.next_id, bundle.messageId, bundle.channel, bundle.author,
            bundle.timestamp, bundle.classification, bundle.resolutionText,
            bundle.quotedRequest, bundle.permalink, "received", none, none, none,
            none, now, now⟩ := fetch_insert_row bundle now db hids
    have hing : ingest bundle now db
        = ⟨202, some db.next_id, some "queued", (insert_row bundle now db).2,
            some (db.next_id, bundle)⟩ := by
      unfold ingest
      rw [hok]
      rfl
    rw [hing]
    refine ⟨rfl, rfl, rfl, ?_, ?_, rfl⟩
    · simp [insert_row]
    · rw [htail]
      rfl

/-- C4 witness: both halves at concrete stores — the duplicate ingest on
the one-record store, and the fresh ingest on the empty store. -/
theorem ingest_duplicate_server_error_c4_witness :
    (ingest b0 "t1" rIng1.db = ⟨500, none, none, rIng1.db, none⟩)
    ∧ ((ingest b0 "t0" init_db).http_status = 202
        ∧ (ingest b0 "t0" init_db).body_id = some init_db.next_id
        ∧ (ingest b0 "t0" init_db).body_status = some "queued"
        ∧ (ingest b0 "t0" init_db).db.rows.length = init_db.rows.length + 1
        ∧ (fetch_message init_db.next_id (ingest b0 "t0" init_db).db).map MessageRecord.status
            = some "received"
        ∧ (ingest b0 "t0" init_db).task = some (init_db.next_id, b0)) := by
  refine ⟨?_, ingest_duplicate_server_error_c4.2 b0 "t0" init_db
    (fun mid _ => rfl) (by decide)⟩
  exact ingest_duplicate_server_error_c4.1 b0 "t1" rIng1.db "msg-1" rfl (by decide)

end Processor

namespace Processor

/-- A record driven into `agent_error` with a recorded error message. -/
def dbC3 : DB :=
  update_message 1 (some "agent_error") none none none (some "boom") "t1" rIng1.db

/-- The retry of that record. -/
def rRetry3 : RetryResult := retry_message 1 "t2" dbC3

/-- C3 counterexample: retrying the `agent_error` record persists status
`queued` — not `received` — and, because `update_message` skips every
field passed as `None`, the error column still holds the old message
instead of being cleared.  The claim as stated is therefore false at this
concrete input. -/
theorem retry_not_received_error_kept_c3_cex :
    (fetch_message 1 rRetry3.db).map MessageRecord.status = some "queued"
    ∧ (fetch_message 1 rRetry3.db).map MessageRecord.status ≠ some "received"
    ∧ (fetch_message 1 rRetry3.db).map MessageRecord.error = some (some "boom") := by
  decide

/-- C3 (amended): for every existing record in any status, the retry
operation answers 200, sets the persisted status to `queued` (not
`received`), leaves the error column unchanged (passing `error=None`
skips the field, so nothing is cleared), and re-invokes the processing
step with the bundle reconstructed from the record's persisted columns. -/
theorem retry_sets_queued_keeps_error_c3 :
    ∀ (record_id : Nat) (now : String) (db : DB) (row : MessageRecord),
      fetch_message record_id db = some row →
      (retry_message record_id now db).http_status = 200
      ∧ (fetch_message record_id (retry_message record_id now db).db).map MessageRecord.status
          = some "queued"
      ∧ (fetch_message record_id (retry_message record_id now db).db).map MessageRecord.error
          = some row.error
      ∧ (retry_message record_id now db).task
          = some (record_id,
              ⟨row.channel, row.message_id, row.author, row.timestamp,
                row.classification_json, row.resolution_text,
                row.quoted_request_json, row.permalink⟩) := by
  intro record_id now db row hrow
  have hret : retry_message record_id now db
      = ⟨200, update_message record_id (some "queued") none none none none now db,
          some (record_id,
            ⟨row.channel, row.message_id, row.author, row.timestamp,
              row.classification_json, row.resolution_text,
              row.quoted_request_json, row.permalink⟩)⟩ := by
    unfold retry_message
    rw [hrow]
  rw [hret]
  refine ⟨rfl, ?_, ?_, rfl⟩
  · rw [fetch_update_self record_id (some "queued") none none none none now db row hrow]
    rfl
  · rw [fetch_update_self record_id (some "queued") none none none none now db row hrow]
    rfl

/-- C3 witness: the amended retry semantics at the concrete
`agent_error` record. -/
theorem retry_sets_queued_keeps_error_c3_witness :
    rRetry3.http_status = 200
    ∧ (fetch_message 1 rRetry3.db).map MessageRecord.status = some "queued"
    ∧ (fetch_message 1 rRetry3.db).map MessageRecord.error
        = some (some "boom")
    ∧ rRetry3.task
        = some (1, ⟨"Ops", some "msg-1", "Alice", none, "ctype", "Deployed v1.2.3",
            none, none⟩) := by
  have h := retry_sets_queued_keeps_error_c3 1 "t2" dbC3
    ⟨1, some "msg-1", "Ops", "Alice", none, "ctype", "Deployed v1.2.3", none, none,
      "agent_error", none, none, none, some "boom", "t0", "t1"⟩ (by decide)
  exact h

end Processor

namespace Processor

lemma status_log_update_some (record_id : Nat) (s : String)
    (jp : Option JiraPayload) (nc : Option Nat) (nb : Option String)
    (er : Option String) (now : String) (db : DB)
    (h : rowExists db record_id = true) :
    (update_message record_id (some s) jp nc nb er now db).status_log
      = db.status_log ++ [(record_id, s)] := by
  simp [update_message, h]

/-- Webhook configuration and environment for the C1 concrete run. -/
def cfgN8n : N8nConfig := ⟨some "https://n8n.example/webhook", none⟩

def payload0 : JiraPayload := ⟨"Yaygınlaştırma", "sum", "desc", [], "cf", none, "md"⟩

/-- The store after processing record 1 with a successful classification
and a webhook answering 500. -/
def dbC1 : DB :=
  process_message cfgN8n ⟨ClassifyOutcome.ok payload0, ForwardOutcome.response 500 "oops"⟩
    1 "t1" rIng1.db

/-- C1 counterexample: after the forward receives HTTP 500, the record's
final persisted status is `failed`, not `n8n_error`: `forward_to_n8n`
persists `n8n_error` but then raises, and the generic handler at the end
of `process_message` overwrites the status with `failed`.  The claim as
stated is therefore false at this concrete input. -/
theorem forward_error_final_status_c1_cex :
    (fetch_message 1 dbC1).map MessageRecord.status = some "failed"
    ∧ (fetch_message 1 dbC1).map MessageRecord.status ≠ some "n8n_error" := by
  decide

/-- C1 (amended): for every processed record whose forward receives a
response with status >= 400, the record is first persisted as `n8n_error`
with the downstream code and truncated body, but the failure raised by
`forward_to_n8n` is caught inside the processing step itself (never
reaching its caller), which persists the final status `failed` with the
raised message; the downstream code and body remain on the record, the
payload stays persisted, and the status writes of the step are exactly
`processed`, `n8n_error`, `failed` — a single forward attempt, with no
automatic retry. -/
theorem forward_error_persists_failed_c1 :
    ∀ (cfg : N8nConfig) (payload : JiraPayload) (code : Nat) (text : String)
      (record_id : Nat) (now : String) (db : DB) (row : MessageRecord) (db' : DB),
      urlTruthy cfg.webhook_url = true → 400 ≤ code →
      fetch_message record_id db = some row →
      db' = process_message cfg
              ⟨ClassifyOutcome.ok payload, ForwardOutcome.response code text⟩
              record_id now db →
      ((fetch_message record_id db').map MessageRecord.status = some "failed")
      ∧ ((fetch_message record_id db').map MessageRecord.n8n_response_code
          = some (some code))
      ∧ ((fetch_message record_id db').map MessageRecord.n8n_response_body
          = some (some (text.take 2000)))
      ∧ ((fetch_message record_id db').map MessageRecord.error
          = some (some ("n8n responded with " ++ toString code ++ ": " ++ text)))
      ∧ ((fetch_message record_id db').map MessageRecord.jira_payload_json
          = some (some payload))
      ∧ db'.status_log = db.status_log
          ++ [(record_id, "processed"), (record_id, "n8n_error"), (record_id, "failed")] := by
  intro cfg payload code text record_id now db row db' hurl hcode hrow hdb
  have hnotlt : ¬ code < 400 := Nat.not_lt.mpr hcode
  have hfwd : forward_to_n8n cfg (ForwardOutcome.response code text) record_id now
      (update_message record_id (some "processed") (some payload) none none none now db)
      = (update_message record_id (some "n8n_error") none (some code)
            (some (text.take 2000)) none now
            (update_message record_id (some "processed") (some payload) none none none now db),
          some ("n8n responded with " ++ toString code ++ ": " ++ text)) := by
    simp [forward_to_n8n, hurl, hnotlt, hcode]
  have hproc : db' = update_message record_id (some "failed") none none none
      (some ("n8n responded with " ++ toString code ++ ": " ++ text)) now
      (update_message record_id (some "n8n_error") none (some code)
        (some (text.take 2000)) none now
        (update_message record_id (some "processed") (some payload) none none none now db)) := by
    rw [hdb]
    simp only [process_message, hfwd]
  have h1 := fetch_update_self record_id (some "processed") (some payload) none none none now
    db row hrow
  have h2 := fetch_update_self record_id (some "n8n_error") none (some code)
    (some (text.take 2000)) none now _ _ h1
  have h3 := fetch_update_self record_id (some "failed") none none none
    (some ("n8n responded with " ++ toString code ++ ": " ++ text)) now _ _ h2
  rw [hproc] at *
  have e1 : rowExists db record_id = true := (rowExists_iff db record_id).mpr ⟨row, hrow⟩
  have e2 : rowExists (update_message record_id (some "processed") (some payload)
      none none none now db) record_id = true := by
    rw [rowExists_update]; exact e1
  have e3 : rowExists (update_message record_id (some "n8n_error") none (some code)
      (some (text.take 2000)) none now
      (update_message record_id (some "processed") (some payload) none none none now db))
      record_id = true := by
    rw [rowExists_update, rowExists_update]; exact e1
  refine ⟨?_, ?_, ?_, ?_, ?_, ?_⟩
  · rw [h3]; rfl
  · rw [h3]; rfl
  · rw [h3]; rfl
  · rw [h3]; rfl
  · rw [h3]; rfl
  · rw [status_log_update_some _ _ _ _ _ _ _ _ e3,
      status_log_update_some _ _ _ _ _ _ _ _ e2,
      status_log_update_some _ _ _ _ _ _ _ _ e1]
    simp

/-- C1 witness: the amended statement at the concrete 500-response run. -/
theorem forward_error_persists_failed_c1_witness :
    ((fetch_message 1 dbC1).map MessageRecord.status = some "failed")
    ∧ ((fetch_message 1 dbC1).map MessageRecord.n8n_response_code = some (some 500))
    ∧ ((fetch_message 1 dbC1).map MessageRecord.n8n_response_body
        = some (some ("oops".take 2000)))
    ∧ ((fetch_message 1 dbC1).map MessageRecord.error
        = some (some ("n8n responded with " ++ toString 500 ++ ": " ++ "oops")))
    ∧ ((fetch_message 1 dbC1).map MessageRecord.jira_payload_json = some (some payload0))
    ∧ dbC1.status_log = rIng1.db.status_log
        ++ [(1, "processed"), (1, "n8n_error"), (1, "failed")] := by
  exact forward_error_persists_failed_c1 cfgN8n payload0 500 "oops" 1 "t1" rIng1.db
    ⟨1, some "msg-1", "Ops", "Alice", none, "ctype", "Deployed v1.2.3", none, none,
      "received", none, none, none, none, "t0", "t0"⟩ dbC1
    (by decide) (by decide) (by decide) rfl

end Processor

namespace Extractor

/-- A team whose channel listing fails contributes nothing: discovery over
a team list containing it equals discovery with that team removed. -/
lemma discover_channels_skip (cfg : ExtractionConfig)
    (gtc : String → Except String (List ChannelData)) (t : TeamData) (e : String)
    (he : gtc t.id = Except.error e) :
    ∀ (ts1 ts2 : List TeamData),
      discover_channels cfg gtc (ts1 ++ t :: ts2)
        = discover_channels cfg gtc (ts1 ++ ts2) := by
  intro ts1
  induction ts1 with
  | nil =>
      intro ts2
      simp only [List.nil_append, discover_channels]
      by_cases hskip : (!cfg.team_ids.isEmpty && !cfg.team_ids.contains t.id) = true
      · rw [if_pos hskip]
      · rw [if_neg hskip, he]
  | cons t1 rest ih =>
      intro ts2
      simp only [List.cons_append, discover_channels]
      by_cases hskip : (!cfg.team_ids.isEmpty && !cfg.team_ids.contains t1.id) = true
      · rw [if_pos hskip, if_pos hskip]
        exact ih ts2
      · rw [if_neg hskip, if_neg hskip]
        cases hc : gtc t1.id with
        | error e1 => simpa using ih ts2
        | ok chans => simp [ih ts2]

/-- C9 (amended): when one team's channel listing fails during discovery,
the team is skipped with only a logged warning: the extraction result is
exactly the one obtained without that team — the surviving channels'
messages are returned, discovery is not aborted, and the error list gains
no entry for the failed listing. -/
theorem discovery_failure_not_in_errors_c9 :
    ∀ (cfg : ExtractionConfig) (gtc : String → Except String (List ChannelData))
      (t : TeamData) (e : String) (ts1 ts2 : List TeamData)
      (rs : String → String → Bool)
      (fetch : TeamsChannel → Except String (List TeamsMessage)),
      gtc t.id = Except.error e →
      discover_channels cfg gtc (ts1 ++ t :: ts2)
          = discover_channels cfg gtc (ts1 ++ ts2)
      ∧ extract_messages rs cfg (Except.ok (ts1 ++ t :: ts2)) gtc fetch
          = extract_messages rs cfg (Except.ok (ts1 ++ ts2)) gtc fetch := by
  intro cfg gtc t e ts1 ts2 rs fetch he
  have hd := discover_channels_skip cfg gtc t e he ts1 ts2
  exact ⟨hd, by simp only [extract_messages, hd]⟩

/-- Concrete discovery scenario for C9: two teams, the first one's channel
listing fails, the second yields one channel with one message. -/
def teamsC9 : List TeamData := [⟨"tA", "Team A"⟩, ⟨"tB", "Team B"⟩]

def gtcC9 : String → Except String (List ChannelData) :=
  fun tid => if tid = "tB" then Except.ok [chD6 "cB"] else Except.error "403 Forbidden"

def fetchC9 : TeamsChannel → Except String (List TeamsMessage) :=
  fun _ => Except.ok [msg6 "mB"]

/-- C9 counterexample: in the two-team scenario with one failing channel
listing, the result does return the surviving channel's messages, but the
error list is empty — it does not contain exactly one entry for the
failed listing, the failure being only logged.  The claim as stated is
therefore false at this concrete input. -/
theorem discovery_failure_error_list_c9_cex :
    (extract_messages rs6 {} (Except.ok teamsC9) gtcC9 fetchC9).errors = []
    ∧ (extract_messages rs6 {} (Except.ok teamsC9) gtcC9 fetchC9).errors.length ≠ 1
    ∧ (extract_messages rs6 {} (Except.ok teamsC9) gtcC9 fetchC9).messages = [msg6 "mB"] := by
  decide

/-- C9 witness: the amended statement at the concrete two-team scenario. -/
theorem discovery_failure_not_in_errors_c9_witness :
    discover_channels {} gtcC9 ([] ++ ⟨"tA", "Team A"⟩ :: [⟨"tB", "Team B"⟩])
        = discover_channels {} gtcC9 ([] ++ [⟨"tB", "Team B"⟩])
    ∧ extract_messages rs6 {} (Except.ok ([] ++ ⟨"tA", "Team A"⟩ :: [⟨"tB", "Team B"⟩]))
          gtcC9 fetchC9
        = extract_messages rs6 {} (Except.ok ([] ++ [⟨"tB", "Team B"⟩])) gtcC9 fetchC9 :=
  discovery_failure_not_in_errors_c9 {} gtcC9 ⟨"tA", "Team A"⟩ "403 Forbidden"
    [] [⟨"tB", "Team B"⟩] rs6 fetchC9 rfl

end Extractor

namespace Processor

/-- The sequence of status values one run of `process_message` writes, as
a function of the classification/forward outcomes and the webhook
configuration. -/
def statusSegment (cfg : N8nConfig) (env : ProcessEnv) : List String :=
  match env.classify with
  | ClassifyOutcome.ok _ =>
      "processed" ::
        (if urlTruthy cfg.webhook_url = false then []
         else
           match env.forward with
           | ForwardOutcome.response code _ =>
               if code < 400 then ["forwarded"] else ["n8n_error", "failed"]
           | ForwardOutcome.exn _ => ["failed"])
  | ClassifyOutcome.agentError _ => ["agent_error"]
  | ClassifyOutcome.exn _ => ["failed"]

lemma rowExists_forward (cfg : N8nConfig) (o : ForwardOutcome) (record_id : Nat)
    (now : String) (db : DB) (j : Nat) :
    rowExists (forward_to_n8n cfg o record_id now db).1 j = rowExists db j := by
  unfold forward_to_n8n
  by_cases hurl : urlTruthy cfg.webhook_url = false
  · rw [if_pos hurl]
  · rw [if_neg hurl]
    cases o with
    | response code text =>
        by_cases hc : 400 ≤ code <;> simp [hc, rowExists_update]
    | exn m => rfl

lemma rowExists_process (cfg : N8nConfig) (env : ProcessEnv) (record_id : Nat)
    (now : String) (db : DB) (j : Nat) :
    rowExists (process_message cfg env record_id now db) j = rowExists db j := by
  cases hcl : env.classify with
  | ok p =>
      simp only [process_message, hcl]
      cases hg : (forward_to_n8n cfg env.forward record_id now
          (update_message record_id (some "processed") (some p) none none none now db)).2 with
      | none =>
          simp only [hg]
          rw [rowExists_forward, rowExists_update]
      | some m =>
          simp only [hg]
          rw [rowExists_update, rowExists_forward, rowExists_update]
  | agentError m =>
      simp only [process_message, hcl]
      rw [rowExists_update]
  | exn m =>
      simp only [process_message, hcl]
      rw [rowExists_update]

/-- The statuses `process_message` appends to the ghost log are exactly
`statusSegment`. -/
lemma process_status_log (cfg : N8nConfig) (env : ProcessEnv) (record_id : Nat)
    (now : String) (db : DB) (h : rowExists db record_id = true) :
    (process_message cfg env record_id now db).status_log
      = db.status_log ++ (statusSegment cfg env).map (fun s => (record_id, s)) := by
  cases hcl : env.classify with
  | agentError m =>
      simp only [process_message, hcl, statusSegment]
      rw [status_log_update_some _ _ _ _ _ _ _ _ h]
      simp
  | exn m =>
      simp only [process_message, hcl, statusSegment]
      rw [status_log_update_some _ _ _ _ _ _ _ _ h]
      simp
  | ok p =>
      have h1 : rowExists (update_message record_id (some "processed") (some p)
          none none none now db) record_id = true := by
        rw [rowExists_update]; exact h
      by_cases hurl : urlTruthy cfg.webhook_url = false
      · have hfwd : forward_to_n8n cfg env.forward record_id now
            (update_message record_id (some "processed") (some p) none none none now db)
            = (update_message record_id (some "processed") (some p) none none none now db,
                none) := by
          simp [forward_to_n8n, hurl]
        have hseg : statusSegment cfg env = ["processed"] := by
          simp [statusSegment, hcl, hurl]
        simp only [process_message, hcl, hfwd, hseg]
        rw [status_log_update_some _ _ _ _ _ _ _ _ h]
        simp
      · have hurlT : urlTruthy cfg.webhook_url = true := by
          revert hurl
          cases urlTruthy cfg.webhook_url <;> simp
        cases hfo : env.forward with
        | exn m =>
            have hfwd : forward_to_n8n cfg (ForwardOutcome.exn m) record_id now
                (update_message record_id (some "processed") (some p) none none none now db)
                = (update_message record_id (some "processed") (some p) none none none now db,
                    some m) := by
              unfold forward_to_n8n
              rw [if_neg hurl]
            have hseg : statusSegment cfg env = ["processed", "failed"] := by
              simp only [statusSegment, hcl, hfo]
              rw [if_neg hurl]
            simp only [process_message, hcl, hfo, hfwd, hseg]
            rw [status_log_update_some _ _ _ _ _ _ _ _ h1,
              status_log_update_some _ _ _ _ _ _ _ _ h]
            simp
        | response code text =>
            by_cases hlt : code < 400
            · have hfwd : forward_to_n8n cfg (ForwardOutcome.response code text) record_id now
                  (update_message record_id (some "processed") (some p) none none none now db)
                  = (update_message record_id (some "forwarded") none (some code)
                      (some (text.take 2000)) none now
                      (update_message record_id (some "processed") (some p) none none none now db),
                      none) := by
                unfold forward_to_n8n
                rw [if_neg hurl]
                simp [hlt, Nat.not_le.mpr hlt]
              have hseg : statusSegment cfg env = ["processed", "forwarded"] := by
                simp only [statusSegment, hcl, hfo]
                rw [if_neg hurl]
                simp [hlt]
              simp only [process_message, hcl, hfo, hfwd, hseg]
              rw [status_log_update_some _ _ _ _ _ _ _ _ h1,
                status_log_update_some _ _ _ _ _ _ _ _ h]
              simp
            · have hge : 400 ≤ code := Nat.not_lt.mp hlt
              have hfwd : forward_to_n8n cfg (ForwardOutcome.response code text) record_id now
                  (update_message record_id (some "processed") (some p) none none none now db)
                  = (update_message record_id (some "n8n_error") none (some code)
                      (some (text.take 2000)) none now
                      (update_message record_id (some "processed") (some p) none none none now db),
                      some ("n8n responded with " ++ toString code ++ ": " ++ text)) := by
                unfold forward_to_n8n
                rw [if_neg hurl]
                simp [hlt, hge]
              have hseg : statusSegment cfg env = ["processed", "n8n_error", "failed"] := by
                simp only [statusSegment, hcl, hfo]
                rw [if_neg hurl]
                simp [hlt]
              have h2 : rowExists (update_message record_id (some "n8n_error") none (some code)
                  (some (text.take 2000)) none now
                  (update_message record_id (some "processed") (some p) none none none now db))
                  record_id = true := by
                rw [rowExists_update]; exact h1
              simp only [process_message, hcl, hfo, hfwd, hseg]
              rw [status_log_update_some _ _ _ _ _ _ _ _ h2,
                status_log_update_some _ _ _ _ _ _ _ _ h1,
                status_log_update_some _ _ _ _ _ _ _ _ h]
              simp

end Processor

namespace Processor

/-- The ingest endpoint followed by its detached processing task run to
completion (the single-event-loop sequentialization). -/
def run_ingest (cfg : N8nConfig) (env : ProcessEnv) (bundle : TeamsResolution)
    (now : String) (db : DB) : DB :=
  let ir := ingest bundle now db
  match ir.task with
  | some (rid, _) => process_message cfg env rid now ir.db
  | none => ir.db

/-- The retry endpoint followed by its detached processing task run to
completion. -/
def run_retry (cfg : N8nConfig) (record_id : Nat) (now : String) (db : DB)
    (env : ProcessEnv) : DB :=
  let rr := retry_message record_id now db
  match rr.task with
  | some (rid, _) => process_message cfg env rid now rr.db
  | none => rr.db

/-- A record's whole life: one ingest (which triggers one processing run)
followed by any number of explicit retries (each triggering one processing
run), each run's environment chosen freely. -/
def run_lifecycle (cfg : N8nConfig) (bundle : TeamsResolution) (now : String)
    (db0 : DB) (env0 : ProcessEnv) (retries : List ProcessEnv) : DB :=
  retries.foldl (run_retry cfg db0.next_id now)
    (run_ingest cfg env0 bundle now db0)

/-- The sequence of status values ever persisted for a record, in write
order (read off the ghost log). -/
def statusTrace (record_id : Nat) (db : DB) : List String :=
  (db.status_log.filter (fun p => p.1 = record_id)).map (fun p => p.2)

/-- The spec's status-machine edges, amended by what the code actually
does: an explicit retry moves any state to `queued`; `received` and
`queued` start a processing run; `processed` may fall to `failed` on a
forward exception; a persisted `n8n_error` is overwritten by `failed`
when the raised forward failure is caught. -/
def allowedNext (a b : String) : Bool :=
  b == "queued"
  || (a == "received" && (b == "processed" || b == "agent_error" || b == "failed"))
  || (a == "queued" && (b == "processed" || b == "agent_error" || b == "failed"))
  || (a == "processed" && (b == "forwarded" || b == "n8n_error" || b == "failed"))
  || (a == "n8n_error" && b == "failed")

/-- The status vocabulary named by the spec. -/
def specStatuses : List String :=
  ["received", "processed", "agent_error", "failed", "forwarded", "n8n_error"]

lemma statusSegment_cases (cfg : N8nConfig) (env : ProcessEnv) :
    statusSegment cfg env = ["processed"]
    ∨ statusSegment cfg env = ["processed", "forwarded"]
    ∨ statusSegment cfg env = ["processed", "n8n_error", "failed"]
    ∨ statusSegment cfg env = ["processed", "failed"]
    ∨ statusSegment cfg env = ["agent_error"]
    ∨ statusSegment cfg env = ["failed"] := by
  cases hcl : env.classify with
  | agentError m => simp [statusSegment, hcl]
  | exn m => simp [statusSegment, hcl]
  | ok p =>
      by_cases hurl : urlTruthy cfg.webhook_url = false
      · simp [statusSegment, hcl, hurl]
      · cases hfo : env.forward with
        | exn m =>
            simp only [statusSegment, hcl, hfo]
            rw [if_neg hurl]
            simp
        | response code text =>
            by_cases hlt : code < 400 <;>
              · simp only [statusSegment, hcl, hfo]
                rw [if_neg hurl]
                simp [hlt]

/-- Starting from `received` or `queued`, every processing run walks the
amended machine. -/
lemma chain_cons_segment (cfg : N8nConfig) (env : ProcessEnv) (s : String)
    (hs : s = "received" ∨ s = "queued") :
    List.Chain' (fun a b => allowedNext a b = true) (s :: statusSegment cfg env) := by
  rcases statusSegment_cases cfg env with hseg | hseg | hseg | hseg | hseg | hseg <;>
    rw [hseg] <;> rcases hs with rfl | rfl <;>
    · simp only [List.chain'_cons, List.chain'_singleton, and_true]
      decide

lemma segment_mem (cfg : N8nConfig) (env : ProcessEnv) :
    ∀ s ∈ statusSegment cfg env, s ∈ "queued" :: specStatuses := by
  rcases statusSegment_cases cfg env with hseg | hseg | hseg | hseg | hseg | hseg <;>
    rw [hseg] <;> decide

lemma allowedNext_queued (a : String) : allowedNext a "queued" = true := by
  simp [allowedNext]

end Processor

namespace Processor

lemma run_retry_log (cfg : N8nConfig) (record_id : Nat) (now : String) (db : DB)
    (env : ProcessEnv) (h : rowExists db record_id = true) :
    (run_retry cfg record_id now db env).status_log
      = db.status_log
          ++ ((record_id, "queued") :: (statusSegment cfg env).map (fun s => (record_id, s)))
    ∧ rowExists (run_retry cfg record_id now db env) record_id = true := by
  obtain ⟨row, hrow⟩ := (rowExists_iff db record_id).mp h
  have hret : retry_message record_id now db
      = ⟨200, update_message record_id (some "queued") none none none none now db,
          some (record_id, ⟨row.channel, row.message_id, row.author, row.timestamp,
            row.classification_json, row.resolution_text, row.quoted_request_json,
            row.permalink⟩)⟩ := by
    unfold retry_message
    rw [hrow]
  have hq : rowExists (update_message record_id (some "queued") none none none none now db)
      record_id = true := by
    rw [rowExists_update]; exact h
  constructor
  · simp only [run_retry, hret]
    rw [process_status_log _ _ _ _ _ hq, status_log_update_some _ _ _ _ _ _ _ _ h]
    simp
  · simp only [run_retry, hret]
    rw [rowExists_process]
    exact hq

lemma foldl_run_retry (cfg : N8nConfig) (record_id : Nat) (now : String) :
    ∀ (retries : List ProcessEnv) (db : DB), rowExists db record_id = true →
      (retries.foldl (run_retry cfg record_id now) db).status_log
        = db.status_log
            ++ (retries.map (fun e =>
                (record_id, "queued")
                  :: (statusSegment cfg e).map (fun s => (record_id, s)))).flatten
      ∧ rowExists (retries.foldl (run_retry cfg record_id now) db) record_id = true := by
  intro retries
  induction retries with
  | nil => intro db h; exact ⟨by simp, h⟩
  | cons e es ih =>
      intro db h
      obtain ⟨hlog, hex⟩ := run_retry_log cfg record_id now db e h
      obtain ⟨ihlog, ihex⟩ := ih (run_retry cfg record_id now db e) hex
      refine ⟨?_, by simpa using ihex⟩
      simp only [List.foldl_cons, List.map_cons, List.flatten_cons]
      rw [ihlog, hlog]
      simp [List.append_assoc]

/-- Reading a record's trace off a log that is disjoint garbage followed
by that record's own writes. -/
lemma statusTrace_of_log (record_id : Nat) (db : DB) (pre : List (Nat × String))
    (T : List String)
    (hlog : db.status_log = pre ++ T.map (fun s => (record_id, s)))
    (hpre : pre.filter (fun p => p.1 = record_id) = []) :
    statusTrace record_id db = T := by
  simp only [statusTrace, hlog, List.filter_append, hpre, List.nil_append,
    List.filter_map]
  have h1 : ((fun p => decide (p.1 = record_id))
      ∘ (fun s => ((record_id, s) : Nat × String))) = fun _ => true :=
    funext fun s => by simp
  rw [h1, List.filter_true, List.map_map]
  simp

lemma chain_append_retries (cfg : N8nConfig) :
    ∀ (retries : List ProcessEnv) (l : List String), l ≠ [] →
      List.Chain' (fun a b => allowedNext a b = true) l →
      List.Chain' (fun a b => allowedNext a b = true)
        (l ++ (retries.map (fun e => "queued" :: statusSegment cfg e)).flatten) := by
  intro retries
  induction retries with
  | nil => intro l _ hch; simpa using hch
  | cons e es ih =>
      intro l hne hch
      have hstep : List.Chain' (fun a b => allowedNext a b = true)
          (l ++ ("queued" :: statusSegment cfg e)) := by
        refine List.Chain'.append hch (chain_cons_segment cfg e "queued" (Or.inr rfl)) ?_
        intro x hx y hy
        have hy' : y = "queued" := by
          have := hy
          simp only [List.head?_cons, Option.mem_def, Option.some.injEq] at this
          exact this.symm
        subst hy'
        exact allowedNext_queued x
      simp only [List.map_cons, List.flatten_cons, ← List.append_assoc]
      exact ih (l ++ ("queued" :: statusSegment cfg e)) (by simp) hstep

end Processor

namespace Processor

/-- Environments for the concrete C2 runs. -/
def envC2ok : ProcessEnv := ⟨ClassifyOutcome.ok payload0, ForwardOutcome.response 200 "ok"⟩

def envC2err : ProcessEnv := ⟨ClassifyOutcome.agentError "boom", ForwardOutcome.response 200 "ok"⟩

/-- A lifecycle with one retry, started on a fresh store. -/
def dbC2 : DB := run_lifecycle ⟨none, none⟩ b0 "t0" init_db envC2err [envC2err]

/-- C2 counterexample: the retry endpoint persists the status `queued`,
which is outside the claim's status set {received, processed, agent_error,
failed, forwarded, n8n_error}; the record's persisted trace after one
retry contains it.  The claim as stated is therefore false at this
concrete input. -/
theorem trace_contains_queued_c2_cex :
    "queued" ∈ statusTrace 1 dbC2 ∧ "queued" ∉ specStatuses := by
  decide

/-- C2 (amended): for every record created by an ingest and driven by any
number of explicit retries, the sequence of persisted status values is
exactly `received` followed by one processing segment, then for each retry
`queued` followed by one processing segment; every value lies in
{received, processed, agent_error, failed, forwarded, n8n_error, queued};
and the sequence is a path through the machine
received|queued → (processed | agent_error | failed),
processed → (forwarded | n8n_error | failed), n8n_error → failed,
with every explicit retry restarting the path from `queued` (not
`received`). -/
theorem lifecycle_trace_valid_c2 :
    ∀ (cfg : N8nConfig) (bundle : TeamsResolution) (now : String) (db0 : DB)
      (env0 : ProcessEnv) (retries : List ProcessEnv),
      (∀ r ∈ db0.rows, r.id ≠ db0.next_id) →
      db0.status_log.filter (fun p => p.1 = db0.next_id) = [] →
      (∀ mid, bundle.messageId = some mid → hasMessageId db0 mid = false) →
      statusTrace db0.next_id (run_lifecycle cfg bundle now db0 env0 retries)
          = "received" :: (statusSegment cfg env0
              ++ (retries.map (fun e => "queued" :: statusSegment cfg e)).flatten)
      ∧ List.Chain' (fun a b => allowedNext a b = true)
          (statusTrace db0.next_id (run_lifecycle cfg bundle now db0 env0 retries))
      ∧ ∀ s ∈ statusTrace db0.next_id (run_lifecycle cfg bundle now db0 env0 retries),
          s ∈ "queued" :: specStatuses := by
  intro cfg bundle now db0 env0 retries h1 h2 h3
  have hok : insert_message bundle now db0 = Except.ok (insert_row bundle now db0) := by
    cases hmid : bundle.messageId with
    | none => simp [insert_message, hmid]
    | some mid => simp [insert_message, hmid, h3 mid hmid]
  have hing : ingest bundle now db0
      = ⟨202, some db0.next_id, some "queued", (insert_row bundle now db0).2,
          some (db0.next_id, bundle)⟩ := by
    unfold ingest
    rw [hok]
    rfl
  have hri : run_ingest cfg env0 bundle now db0
      = process_message cfg env0 db0.next_id now (insert_row bundle now db0).2 := by
    simp only [run_ingest, hing]
  have hexists0 : rowExists (insert_row bundle now db0).2 db0.next_id = true := by
    simp [insert_row, rowExists, List.any_append]
  have hlog1 : (run_ingest cfg env0 bundle now db0).status_log
      = db0.status_log ++ ((db0.next_id, "received")
          :: (statusSegment cfg env0).map (fun s => (db0.next_id, s))) := by
    rw [hri, process_status_log _ _ _ _ _ hexists0]
    have hins : (insert_row bundle now db0).2.status_log
        = db0.status_log ++ [(db0.next_id, "received")] := rfl
    rw [hins]
    simp
  have hex1 : rowExists (run_ingest cfg env0 bundle now db0) db0.next_id = true := by
    rw [hri, rowExists_process]
    exact hexists0
  obtain ⟨hfoldlog, hfoldex⟩ :=
    foldl_run_retry cfg db0.next_id now retries (run_ingest cfg env0 bundle now db0) hex1
  have hfinal : (run_lifecycle cfg bundle now db0 env0 retries).status_log
      = db0.status_log ++ ("received" :: (statusSegment cfg env0
          ++ (retries.map (fun e => "queued" :: statusSegment cfg e)).flatten)).map
            (fun s => (db0.next_id, s)) := by
    have hrl : run_lifecycle cfg bundle now db0 env0 retries
        = retries.foldl (run_retry cfg db0.next_id now)
            (run_ingest cfg env0 bundle now db0) := rfl
    rw [hrl, hfoldlog, hlog1]
    simp only [List.map_cons, List.map_append, List.map_flatten, List.map_map,
      List.append_assoc, List.cons_append]
    congr 2
  have hT := statusTrace_of_log db0.next_id (run_lifecycle cfg bundle now db0 env0 retries)
    db0.status_log _ hfinal h2
  refine ⟨hT, ?_, ?_⟩
  · rw [hT]
    have hbase := chain_cons_segment cfg env0 "received" (Or.inl rfl)
    have := chain_append_retries cfg retries ("received" :: statusSegment cfg env0)
      (by simp) hbase
    simpa using this
  · rw [hT]
    intro s hs
    simp only [List.mem_cons, List.mem_append, List.mem_flatten, List.mem_map] at hs
    rcases hs with rfl | hs | ⟨lst, ⟨e, he, hlst⟩, hsl⟩
    · decide
    · exact segment_mem cfg env0 s hs
    · rw [← hlst] at hsl
      rcases List.mem_cons.mp hsl with rfl | hseg
      · decide
      · exact segment_mem cfg e s hseg

/-- C2 witness: the amended lifecycle statement at a concrete run — fresh
store, successful first processing with a webhook answering 200, then one
retry whose classification raises an `AgentError`. -/
theorem lifecycle_trace_valid_c2_witness :
    statusTrace 1 (run_lifecycle cfgN8n b0 "t0" init_db envC2ok [envC2err])
        = "received" :: (statusSegment cfgN8n envC2ok
            ++ ([envC2err].map (fun e => "queued" :: statusSegment cfgN8n e)).flatten)
    ∧ List.Chain' (fun a b => allowedNext a b = true)
        (statusTrace 1 (run_lifecycle cfgN8n b0 "t0" init_db envC2ok [envC2err]))
    ∧ ∀ s ∈ statusTrace 1 (run_lifecycle cfgN8n b0 "t0" init_db envC2ok [envC2err]),
        s ∈ "queued" :: specStatuses :=
  lifecycle_trace_valid_c2 cfgN8n b0 "t0" init_db envC2ok [envC2err]
    (by decide) rfl (fun mid _ => rfl)

end Processor
